import Mathlib

/-!
# Verification of the `web/package.json` validation suite

Shallow embedding of the dependency-free validation script that ships
with the repository: its assertion matcher set
(`expect(actual).toBe/.toMatch/.toHaveProperty/...`), its test runner
(`test(description, fn)` with `passCount`/`failCount`/`failures`
accumulation and the final process exit code), and the concrete
manifest checks the suite performs (Next.js vulnerability floor,
React version consistency, duplicate dependencies).

Modelling conventions:
* JavaScript values are modelled by the mutual inductive `JsValue`
  (the JSON values plus `undefined`); numbers are modelled as integers
  (every number occurring in the suite is a small integer).  `NaN`
  values arising from `Number(...)` on malformed version strings are
  modelled as `Option.none` in the version checks.
* A matcher or check either returns normally (`Except.ok`) or throws
  an error carrying its message (`Except.error msg`).
* Strict equality `===` is modelled as value equality on `JsValue`;
  this agrees with `===` on primitives and on identical references,
  the only cases the suite exercises.
* Property lookup (`in`, `.react`, object key access) models own
  properties; the prototype chain is not modelled (no key used by the
  suite collides with a prototype member).
-/

set_option autoImplicit false

deriving instance DecidableEq for Except

namespace Backpack

mutual

/-- JavaScript values as used by the validation script: the JSON values
(null, booleans, numbers, strings, arrays, objects) plus `undefined`.
Numbers are modelled as integers. -/
inductive JsValue where
  | null : JsValue
  | undef : JsValue
  | bool (b : Bool) : JsValue
  | num (n : Int) : JsValue
  | str (s : String) : JsValue
  | arr (elems : JsList) : JsValue
  | obj (fields : JsFields) : JsValue
  deriving DecidableEq, Repr

/-- A list of JavaScript values (the contents of an array). -/
inductive JsList where
  | nil : JsList
  | cons (head : JsValue) (tail : JsList) : JsList
  deriving DecidableEq, Repr

/-- The fields of a JavaScript object: an ordered association of
string keys to values. -/
inductive JsFields where
  | nil : JsFields
  | cons (key : String) (val : JsValue) (tail : JsFields) : JsFields
  deriving DecidableEq, Repr

end

/-- JavaScript truthiness: `undefined`, `null`, `false`, `0` and the
empty string are falsy; everything else (in particular every array and
every object) is truthy. -/
def truthy : JsValue → Bool
  | .null => false
  | .undef => false
  | .bool b => b
  | .num n => n != 0
  | .str s => s != ""
  | .arr _ => true
  | .obj _ => true

/-- A value is nullish when it is `null` or `undefined`. -/
def nullish : JsValue → Bool
  | .null => true
  | .undef => true
  | _ => false

/-- JSON string escaping of one character, for the characters that can
occur in the suite's data (quote, backslash, common control
characters); other characters pass through unchanged. -/
def escChar (c : Char) : List Char :=
  if c = '"' then ['\\', '"']
  else if c = '\\' then ['\\', '\\']
  else if c = '\n' then ['\\', 'n']
  else if c = '\t' then ['\\', 't']
  else if c = '\r' then ['\\', 'r']
  else [c]

/-- Escape a string's characters for JSON output. -/
def escapeChars : List Char → List Char
  | [] => []
  | c :: cs => escChar c ++ escapeChars cs

mutual

/-- Characters of `JSON.stringify(v)`.  `JSON.stringify(undefined)` is
the value `undefined`, which renders as the text `undefined` when
interpolated into a template string; it is modelled as that text. -/
def stringifyChars : JsValue → List Char
  | .null => "null".data
  | .undef => "undefined".data
  | .bool true => "true".data
  | .bool false => "false".data
  | .num n => (toString n).data
  | .str s => '"' :: escapeChars s.data ++ ['"']
  | .arr elems => '[' :: stringifyElems elems ++ [']']
  | .obj fields => '{' :: stringifyFields fields ++ ['}']

/-- Comma-separated rendering of an array's elements. -/
def stringifyElems : JsList → List Char
  | .nil => []
  | .cons v .nil => stringifyChars v
  | .cons v (.cons w tl) => stringifyChars v ++ ',' :: stringifyElems (.cons w tl)

/-- Comma-separated rendering of an object's `"key":value` members. -/
def stringifyFields : JsFields → List Char
  | .nil => []
  | .cons k v .nil => '"' :: escapeChars k.data ++ '"' :: ':' :: stringifyChars v
  | .cons k v (.cons k2 v2 tl) =>
      '"' :: escapeChars k.data ++ '"' :: ':' :: stringifyChars v
        ++ ',' :: stringifyFields (.cons k2 v2 tl)

end

/-- `JSON.stringify` as a `String`. -/
def jsonStringify (v : JsValue) : String :=
  String.mk (stringifyChars v)

mutual

/-- The `String(v)` coercion (as used by template literals, `RegExp.test`
and `String.prototype.includes` on a non-string argument): arrays
render as their comma-joined elements, objects as `[object Object]`. -/
def jsToString : JsValue → String
  | .null => "null"
  | .undef => "undefined"
  | .bool true => "true"
  | .bool false => "false"
  | .num n => toString n
  | .str s => s
  | .arr elems => jsToStringElems elems
  | .obj _ => "[object Object]"

/-- Comma-joined `String(...)` coercion of an array's elements. -/
def jsToStringElems : JsList → String
  | .nil => ""
  | .cons v .nil => jsToString v
  | .cons v (.cons w tl) => jsToString v ++ "," ++ jsToStringElems (.cons w tl)

end

/-- Whether `pre` is a prefix of `cs`. -/
def charsPrefix : List Char → List Char → Bool
  | [], _ => true
  | _ :: _, [] => false
  | c :: cs, x :: xs => c == x && charsPrefix cs xs

/-- Whether `sub` occurs as a contiguous run inside `cs`
(the substring test behind `String.prototype.includes`). -/
def charsIncludes : List Char → List Char → Bool
  | [], sub => charsPrefix sub []
  | x :: xs, sub => charsPrefix sub (x :: xs) || charsIncludes xs sub

/-- `s.includes(sub)` on strings. -/
def strIncludes (s sub : String) : Bool :=
  charsIncludes s.data sub.data

/-- Array membership by strict-equality (`Array.prototype.includes`,
SameValueZero modelled as value equality). -/
def JsList.containsV : JsList → JsValue → Bool
  | .nil, _ => false
  | .cons h t, v => if h = v then true else t.containsV v

/-- Number of elements of an array. -/
def JsList.length : JsList → Nat
  | .nil => 0
  | .cons _ t => t.length + 1

/-- Whether an object's fields carry the key `k`. -/
def hasKey (k : String) : JsFields → Bool
  | .nil => false
  | .cons key _ tl => if key = k then true else hasKey k tl

/-! ## The matcher set (`expect(actual).<matcher>(...)`) -/

/-- `expect(actual).toBe(expected)`: strict equality, throwing
`Expected <expected>, but got <actual>` (both JSON-serialized) on
mismatch. -/
def toBe (actual expected : JsValue) : Except String Unit :=
  if actual = expected then .ok ()
  else .error ("Expected " ++ jsonStringify expected ++ ", but got " ++ jsonStringify actual)

/-- A regular expression, modelled by its match predicate on strings
together with its display form (`/x/` renders as `/x/` in messages). -/
structure JsRegex where
  test : String → Bool
  display : String

/-- The regex literal `/x/`: matches a string exactly when some
character of it is `x`. -/
def regexX : JsRegex :=
  { test := fun s => s.data.any (fun c => c == 'x'), display := "/x/" }

/-- `expect(actual).toMatch(pattern)`: `pattern.test` on the wrapped
value coerced to a string, throwing
`Expected <actual> to match <pattern>` on mismatch. -/
def toMatch (pattern : JsRegex) (actual : JsValue) : Except String Unit :=
  if pattern.test (jsToString actual) then .ok ()
  else .error ("Expected " ++ jsonStringify actual ++ " to match " ++ pattern.display)

/-- The `prop in v` operator: own key presence for objects, index or
`length` for arrays; on any primitive it throws a `TypeError`
(prototype-chain members are not modelled). -/
def jsIn (prop : String) : JsValue → Except String Bool
  | .obj fields => .ok (hasKey prop fields)
  | .arr elems =>
      .ok ((List.range elems.length).any (fun i => toString i == prop) || prop == "length")
  | _ => .error "TypeError: Cannot use in operator"

/-- `expect(actual).toHaveProperty(prop)`: throws when `actual` is
falsy or when `prop in actual` is false (a `TypeError` raised by `in`
on a truthy primitive propagates). -/
def toHaveProperty (prop : String) (actual : JsValue) : Except String Unit :=
  if truthy actual then
    match jsIn prop actual with
    | .error e => .error e
    | .ok true => .ok ()
    | .ok false => .error ("Expected object to have property " ++ prop)
  else .error ("Expected object to have property " ++ prop)

/-- Numeric `<` where `none` stands for `NaN` (every comparison with
`NaN` is false). -/
def numLt : Option Int → Option Int → Bool
  | some a, some b => a < b
  | _, _ => false

/-- Render a possibly-`NaN` number the way a template literal does. -/
def numToString : Option Int → String
  | some n => toString n
  | none => "NaN"

/-- `expect(actual).toBeGreaterThanOrEqual(expected)`: throws when
`actual < expected` (hence never on `NaN`). -/
def toBeGreaterThanOrEqualNum (actual expected : Option Int) : Except String Unit :=
  if numLt actual expected then
    .error ("Expected " ++ numToString actual ++ " to be greater than or equal to "
      ++ numToString expected)
  else .ok ()

/-- `expect(actual).toEqual(expected)`: deep equality via comparison of
the JSON serializations. -/
def toEqual (actual expected : JsValue) : Except String Unit :=
  if jsonStringify actual = jsonStringify expected then .ok ()
  else .error ("Expected " ++ jsonStringify expected ++ ", but got " ++ jsonStringify actual)

/-- `actual.includes(item)`: array membership for arrays, substring
test (of `String(item)`) for strings; any other receiver throws a
`TypeError` because it has no `includes` method. -/
def jsIncludes (actual item : JsValue) : Except String Bool :=
  match actual with
  | .arr elems => .ok (elems.containsV item)
  | .str s => .ok (strIncludes s (jsToString item))
  | _ => .error "TypeError: actual.includes is not a function"

/-- `expect(actual).not.toContain(item)`: when `actual` is truthy and
`actual.includes(item)` holds, throws
`Expected array not to contain <item>`; a falsy `actual`
short-circuits the guard and never throws; a `TypeError` from calling
`includes` on a truthy non-array non-string propagates. -/
def notToContain (actual item : JsValue) : Except String Unit :=
  if truthy actual then
    match jsIncludes actual item with
    | .error e => .error e
    | .ok true => .error ("Expected array not to contain " ++ jsToString item)
    | .ok false => .ok ()
  else .ok ()

/-- Whether a matcher invocation threw. -/
def throws : Except String Unit → Bool
  | .ok _ => false
  | .error _ => true

/-! ## The test runner -/

/-- The runner's mutable state: `passCount`, `failCount` and the
`failures` array of `(description, error message)` records. -/
structure RunState where
  passCount : Nat
  failCount : Nat
  failures : List (String × String)
  deriving DecidableEq, Repr

/-- The state before any test case has run. -/
def initState : RunState := ⟨0, 0, []⟩

/-- One call of `test(description, testFn)`: the body either completes
(`ok`) and increments `passCount`, or throws (`error msg`); the throw
is caught, `failCount` is incremented and `(description, msg)` is
pushed onto `failures`.  The body's outcome is modelled by the
`Except String Unit` it produces. -/
def test (st : RunState) (description : String) (testFn : Except String Unit) : RunState :=
  match testFn with
  | .ok _ => { st with passCount := st.passCount + 1 }
  | .error msg =>
      { st with failCount := st.failCount + 1,
                failures := st.failures ++ [(description, msg)] }

/-- Run a sequence of registered test cases from a given state. -/
def runFrom (st : RunState) : List (String × Except String Unit) → RunState
  | [] => st
  | c :: cs => runFrom (test st c.1 c.2) cs

/-- Run a whole script: every registered case in order, from the
initial state. -/
def runTests (cases : List (String × Except String Unit)) : RunState :=
  runFrom initState cases

/-- The process exit code chosen after the summary: `1` when
`failCount > 0`, else `0`. -/
def exitCode (st : RunState) : Nat :=
  if st.failCount > 0 then 1 else 0

/-! ## The manifest checks

A dependency map (`dependencies` / `devDependencies`) is modelled as an
ordered association list of package name to version string; property
access returns the first match, or `none` for JavaScript `undefined`
when the key is absent. -/

/-- Property access `deps[key]` on a dependency map. -/
def propGet (deps : List (String × String)) (key : String) : Option String :=
  match deps with
  | [] => none
  | (k, v) :: rest => if k = key then some v else propGet rest key

/-- Lift a possibly-absent version string to a `JsValue` (`undefined`
when the property is missing). -/
def jsOfGet : Option String → JsValue
  | none => .undef
  | some s => .str s

/-- `version.replace(/^[\^~]/, "")`: strip one leading caret or tilde. -/
def stripRange (s : String) : String :=
  match s.data with
  | [] => s
  | c :: rest => if c = '^' || c = '~' then String.mk rest else s

/-- Splitting accumulator for `split(".")`. -/
def splitDotAux : List Char → List Char → List String
  | [], acc => [String.mk acc.reverse]
  | c :: cs, acc =>
      if c = '.' then String.mk acc.reverse :: splitDotAux cs []
      else splitDotAux cs (c :: acc)

/-- `version.split(".")` on a string. -/
def splitDot (s : String) : List String :=
  splitDotAux s.data []

/-- Numeric value of a decimal digit, `none` otherwise. -/
def digitVal (c : Char) : Option Nat :=
  if '0' ≤ c && c ≤ '9' then some (c.toNat - '0'.toNat) else none

/-- Decimal value of a digit run, `none` when a non-digit occurs. -/
def parseDigits (cs : List Char) (acc : Nat) : Option Nat :=
  match cs with
  | [] => some acc
  | c :: rest =>
      match digitVal c with
      | none => none
      | some d => parseDigits rest (acc * 10 + d)

/-- `Number(s)` on the strings produced by splitting a version:
the empty string coerces to `0`, a run of decimal digits to its
value, anything else to `NaN` (modelled `none`).  Signs, whitespace
and fractional forms never occur in the split parts and are not
modelled. -/
def jsNumber (s : String) : Option Int :=
  if s = "" then some 0
  else (parseDigits s.data 0).map Int.ofNat

/-- Component `i` of the split version: a missing part destructures to
`undefined` and `Number(undefined)` is `NaN` (modelled `none`). -/
def versionPart (parts : List String) (i : Nat) : Option Int :=
  match parts[i]? with
  | none => none
  | some s => jsNumber s

/-- The `should use Next.js 15.5.10 or higher` test body: strip the
range prefix, split into `major.minor.patch`, then assert
`major >= 15`, and when `major === 15` assert `minor >= 5`, and when
`minor === 5` assert `patch >= 10`.  The first failing assertion
throws. -/
def nextVersionCheck (nextVersion : String) : Except String Unit := do
  let clean := stripRange nextVersion
  let parts := splitDot clean
  let major := versionPart parts 0
  let minor := versionPart parts 1
  let patch := versionPart parts 2
  toBeGreaterThanOrEqualNum major (some 15)
  if major = some 15 then do
    toBeGreaterThanOrEqualNum minor (some 5)
    if minor = some 5 then
      toBeGreaterThanOrEqualNum patch (some 10)

/-- The `isVulnerable` expression of the
`should not use vulnerable Next.js versions` test:
`major < 15 || (major === 15 && minor < 5) || (major === 15 && minor === 5 && patch < 10)`. -/
def isVulnerable (nextVersion : String) : Bool :=
  let clean := stripRange nextVersion
  let parts := splitDot clean
  let major := versionPart parts 0
  let minor := versionPart parts 1
  let patch := versionPart parts 2
  numLt major (some 15)
    || (major == some 15 && numLt minor (some 5))
    || (major == some 15 && minor == some 5 && numLt patch (some 10))

/-- The `should not use vulnerable Next.js versions` test body:
`expect(isVulnerable).toBe(false)`. -/
def noVulnerableNextCheck (nextVersion : String) : Except String Unit :=
  toBe (.bool (isVulnerable nextVersion)) (.bool false)

/-- The `should use consistent React versions` test body:
`expect(dependencies.react).toBe(dependencies["react-dom"])`. -/
def reactConsistencyCheck (deps : List (String × String)) : Except String Unit :=
  let reactVersion := propGet deps "react"
  let reactDomVersion := propGet deps "react-dom"
  toBe (jsOfGet reactVersion) (jsOfGet reactDomVersion)

/-- `devDepKeys.includes(dep)` on key lists. -/
def keysInclude (keys : List String) (dep : String) : Bool :=
  match keys with
  | [] => false
  | k :: rest => if k = dep then true else keysInclude rest dep

/-- Embed a list of strings as a JavaScript array value. -/
def jsArrOfStrings : List String → JsList
  | [] => .nil
  | s :: rest => .cons (.str s) (jsArrOfStrings rest)

/-- The `should not have duplicate dependencies` test body: filter the
`dependencies` keys down to those also present in `devDependencies`
and assert the result `toEqual`s the empty array. -/
def duplicatesCheck (deps devDeps : List (String × String)) : Except String Unit :=
  let depKeys := deps.map Prod.fst
  let devDepKeys := devDeps.map Prod.fst
  let duplicates := depKeys.filter (fun dep => keysInclude devDepKeys dep)
  toEqual (.arr (jsArrOfStrings duplicates)) (.arr .nil)

/-! ## Derived notions used by the statements -/

/-- The failure records a run accumulates: the `(description, message)`
pairs of the throwing cases, in execution order. -/
def failuresOf (cases : List (String × Except String Unit)) : List (String × String) :=
  cases.filterMap fun c =>
    match c.2 with
    | .ok _ => none
    | .error m => some (c.1, m)

/-- How many of the registered cases throw. -/
def numFailing (cases : List (String × Except String Unit)) : Nat :=
  (cases.filter fun c => throws c.2).length

/-- How many of the registered cases complete normally. -/
def numPassing (cases : List (String × Except String Unit)) : Nat :=
  (cases.filter fun c => !(throws c.2)).length

/-- `sub` occurs verbatim inside `msg`. -/
def containsSub (msg sub : String) : Prop :=
  List.IsInfix sub.data msg.data

instance (msg sub : String) : Decidable (containsSub msg sub) :=
  List.decidableInfix sub.data msg.data

/-! ## Supporting lemmas -/

lemma runFrom_spec (cases : List (String × Except String Unit)) (st : RunState) :
    runFrom st cases =
      ⟨st.passCount + numPassing cases, st.failCount + numFailing cases,
       st.failures ++ failuresOf cases⟩ := by
  induction cases generalizing st with
  | nil => simp [runFrom, numPassing, numFailing, failuresOf]
  | cons c cs ih =>
    match h : c.2 with
    | .ok u =>
      simp only [runFrom, test, h]
      rw [ih]
      simp [numPassing, numFailing, failuresOf, throws, h, List.filter_cons,
        List.filterMap_cons, Nat.add_assoc, Nat.add_comm 1]
    | .error m =>
      simp only [runFrom, test, h]
      rw [ih]
      simp [numPassing, numFailing, failuresOf, throws, h, List.filter_cons,
        List.filterMap_cons, Nat.add_assoc, Nat.add_comm 1]

lemma numPassing_add_numFailing (cases : List (String × Except String Unit)) :
    numPassing cases + numFailing cases = cases.length := by
  induction cases with
  | nil => rfl
  | cons c cs ih =>
    cases hc : throws c.2 <;>
      simp only [numPassing, numFailing, List.filter_cons, hc] at * <;>
      simp <;> omega

lemma failuresOf_length (cases : List (String × Except String Unit)) :
    (failuresOf cases).length = numFailing cases := by
  induction cases with
  | nil => rfl
  | cons c cs ih =>
    match h : c.2 with
    | .ok u =>
      simp [failuresOf, numFailing, List.filterMap_cons, List.filter_cons, throws, h] at *
      exact ih
    | .error m =>
      simp [failuresOf, numFailing, List.filterMap_cons, List.filter_cons, throws, h] at *
      exact ih

lemma keysInclude_iff (keys : List String) (dep : String) :
    keysInclude keys dep = true ↔ dep ∈ keys := by
  induction keys with
  | nil => simp [keysInclude]
  | cons k rest ih =>
    by_cases h : k = dep <;> simp [keysInclude, h, ih]
    exact fun hmem => (h (by simp [hmem])).elim

lemma throws_iff_not_ok (e : Except String Unit) : throws e = true ↔ e ≠ .ok () := by
  cases e with
  | ok u => cases u; simp [throws]
  | error m => simp [throws]

lemma stringifyElems_strings_cons (s : String) (l : List String) :
    ∃ rest, stringifyElems (jsArrOfStrings (s :: l)) = '"' :: rest := by
  cases l with
  | nil => exact ⟨escapeChars s.data ++ ['"'], rfl⟩
  | cons t ts =>
    refine ⟨(escapeChars s.data ++ ['"']) ++ ',' :: stringifyElems (jsArrOfStrings (t :: ts)), ?_⟩
    simp [jsArrOfStrings, stringifyElems, stringifyChars]

lemma duplicatesCheck_ok_iff (deps devDeps : List (String × String)) :
    duplicatesCheck deps devDeps = .ok () ↔
      (deps.map Prod.fst).filter (fun dep => keysInclude (devDeps.map Prod.fst) dep) = [] := by
  unfold duplicatesCheck toEqual
  dsimp only
  cases hl : (deps.map Prod.fst).filter (fun dep => keysInclude (devDeps.map Prod.fst) dep) with
  | nil => simp [jsArrOfStrings]
  | cons s l =>
    obtain ⟨rest, hrest⟩ := stringifyElems_strings_cons s l
    have hdata : ("[]" : String).data = ['[', ']'] := rfl
    simp [jsonStringify, stringifyChars, hrest, stringifyElems, String.ext_iff, hdata]

/-! ## The claims -/

/-- C1: running N registered test cases of which exactly M throw
reports `passCount = N - M` and `failCount = M`; every failing case is
caught and recorded (the `failures` list is exactly the throwing
cases, in order, so no failure aborts the remaining cases); the
process exit code is `1` when `M > 0` and `0` otherwise. -/
theorem runner_totals_and_exit_spec (cases : List (String × Except String Unit)) :
    (runTests cases).passCount = cases.length - numFailing cases ∧
    (runTests cases).failCount = numFailing cases ∧
    (runTests cases).failures = failuresOf cases ∧
    exitCode (runTests cases) = (if 0 < numFailing cases then 1 else 0) := by
  have hp := numPassing_add_numFailing cases
  rw [runTests, runFrom_spec cases initState]
  simp [initState, exitCode]
  omega

/-- C10: after every completed call to the runner's `test` function
(equivalently, after running any sequence of registered cases from the
initial state) `passCount + failCount` equals the number of cases
executed so far, and `failures` has exactly `failCount` entries,
pairing each failed case's description with its error message in
execution order. -/
theorem runner_invariant_spec (cases : List (String × Except String Unit)) :
    (runTests cases).passCount + (runTests cases).failCount = cases.length ∧
    (runTests cases).failures.length = (runTests cases).failCount ∧
    (runTests cases).failures = failuresOf cases := by
  have hp := numPassing_add_numFailing cases
  have hl := failuresOf_length cases
  rw [runTests, runFrom_spec cases initState]
  simp [initState, hl]
  omega

/-- C2: for a manifest whose dependencies map contains
`"next": "^15.5.10"`, the Next.js vulnerability check (strip a leading
caret or tilde, split into `major.minor.patch`, require `major >= 15`,
and if `major = 15` require `minor >= 5`, and if `minor = 5` require
`patch >= 10`) passes without throwing, and so does the equivalent
`isVulnerable` check; for `"next": "^15.4.0"` both checks throw. -/
theorem nextVersion_spec :
    propGet [("next", "^15.5.10")] "next" = some "^15.5.10" ∧
    nextVersionCheck "^15.5.10" = .ok () ∧
    noVulnerableNextCheck "^15.5.10" = .ok () ∧
    throws (nextVersionCheck "^15.4.0") = true ∧
    throws (noVulnerableNextCheck "^15.4.0") = true := by
  decide

/-- C3: for any two values `a` and `b`, `expect(a).toBe(a)` does not
throw, and when `b` differs from `a`, `expect(a).toBe(b)` throws an
error whose message contains the JSON-serialized forms of both `a`
and `b`. -/
theorem toBe_spec (a b : JsValue) :
    toBe a a = .ok () ∧
    (a ≠ b →
      ∃ msg, toBe a b = .error msg ∧ containsSub msg (jsonStringify a) ∧
        containsSub msg (jsonStringify b)) := by
  constructor
  · simp [toBe]
  · intro h
    refine ⟨"Expected " ++ jsonStringify b ++ ", but got " ++ jsonStringify a, ?_, ?_, ?_⟩
    · simp [toBe, h]
    · exact ⟨("Expected " ++ jsonStringify b ++ ", but got ").data, [],
        by simp [String.data_append]⟩
    · exact ⟨"Expected ".data, (", but got " ++ jsonStringify a).data,
        by simp [String.data_append]⟩

/-- Witness for C3 at `a = 1`, `b = 2`. -/
theorem toBe_spec_witness :
    (JsValue.num 1 ≠ JsValue.num 2) ∧
    toBe (.num 1) (.num 1) = .ok () ∧
    (∃ msg, toBe (.num 1) (.num 2) = .error msg ∧
      containsSub msg (jsonStringify (.num 1)) ∧ containsSub msg (jsonStringify (.num 2))) :=
  ⟨by decide, (toBe_spec (.num 1) (.num 2)).1, (toBe_spec (.num 1) (.num 2)).2 (by decide)⟩

/-- C4: `expect({k: 1}).toHaveProperty("k")` does not throw;
`expect({}).toHaveProperty("k")`, `expect(null).toHaveProperty(k)` and
`expect(undefined).toHaveProperty(k)` throw; in general, against a
wrapped object the matcher fails exactly when the object lacks the
key, and against a nullish value it always fails. -/
theorem toHaveProperty_spec (k : String) :
    toHaveProperty "k" (.obj (.cons "k" (.num 1) .nil)) = .ok () ∧
    throws (toHaveProperty "k" (.obj .nil)) = true ∧
    throws (toHaveProperty k .null) = true ∧
    throws (toHaveProperty k .undef) = true ∧
    (∀ fields : JsFields, toHaveProperty k (.obj fields) = .ok () ↔ hasKey k fields = true) := by
  refine ⟨by decide, by decide, rfl, rfl, ?_⟩
  intro fields
  cases h : hasKey k fields <;> simp [toHaveProperty, truthy, jsIn, h]

/-- C5: `expect("x").toMatch(/x/)` does not throw;
`expect("y").toMatch(/x/)` throws an error reporting the value and the
pattern; in general `toMatch` throws exactly when the regular
expression does not match the wrapped string. -/
theorem toMatch_spec :
    toMatch regexX (.str "x") = .ok () ∧
    (∃ msg, toMatch regexX (.str "y") = .error msg ∧
      containsSub msg (jsonStringify (.str "y")) ∧ containsSub msg regexX.display) ∧
    (∀ (pattern : JsRegex) (s : String),
      throws (toMatch pattern (.str s)) = !pattern.test s) := by
  refine ⟨by decide, ⟨"Expected \"y\" to match /x/", by decide, by decide, by decide⟩, ?_⟩
  intro pattern s
  cases h : pattern.test s <;> simp [toMatch, jsToString, throws, h]

/-- C6: the React version-consistency check (strict equality of
`dependencies.react` and `dependencies["react-dom"]`) throws for a
manifest carrying `"react": "18.2.0"` and `"react-dom": "18.1.0"`, and
passes without throwing whenever the two version strings are
identical. -/
theorem reactConsistency_spec :
    throws (reactConsistencyCheck [("react", "18.2.0"), ("react-dom", "18.1.0")]) = true ∧
    (∀ (deps : List (String × String)) (v : String),
      propGet deps "react" = some v → propGet deps "react-dom" = some v →
      reactConsistencyCheck deps = .ok ()) := by
  refine ⟨by decide, ?_⟩
  intro deps v h1 h2
  simp [reactConsistencyCheck, h1, h2, toBe, jsOfGet]

/-- Witness for C6 at a manifest with both versions `18.2.0`. -/
theorem reactConsistency_spec_witness :
    propGet [("react", "18.2.0"), ("react-dom", "18.2.0")] "react" = some "18.2.0" ∧
    propGet [("react", "18.2.0"), ("react-dom", "18.2.0")] "react-dom" = some "18.2.0" ∧
    reactConsistencyCheck [("react", "18.2.0"), ("react-dom", "18.2.0")] = .ok () :=
  ⟨by decide, by decide,
    reactConsistency_spec.2 [("react", "18.2.0"), ("react-dom", "18.2.0")] "18.2.0"
      (by decide) (by decide)⟩

/-- C7: the duplicate-dependency check (filter the `dependencies` keys
down to those also present in `devDependencies` and assert the result
deep-equals the empty list) throws exactly when some key occurs in
both maps, and passes without throwing when the key sets are
disjoint. -/
theorem duplicates_spec (deps devDeps : List (String × String)) :
    (throws (duplicatesCheck deps devDeps) = true ↔
      ∃ k, k ∈ deps.map Prod.fst ∧ k ∈ devDeps.map Prod.fst) ∧
    (duplicatesCheck deps devDeps = .ok () ↔
      ∀ k, ¬(k ∈ deps.map Prod.fst ∧ k ∈ devDeps.map Prod.fst)) := by
  have hfil : ((deps.map Prod.fst).filter (fun dep => keysInclude (devDeps.map Prod.fst) dep)
      = []) ↔ ∀ k, ¬(k ∈ deps.map Prod.fst ∧ k ∈ devDeps.map Prod.fst) := by
    rw [List.filter_eq_nil_iff]
    constructor
    · intro h k hk
      exact h k hk.1 ((keysInclude_iff _ _).mpr hk.2)
    · intro h a ha hinc
      exact h a ⟨ha, (keysInclude_iff _ _).mp hinc⟩
  have key : duplicatesCheck deps devDeps = .ok () ↔
      ∀ k, ¬(k ∈ deps.map Prod.fst ∧ k ∈ devDeps.map Prod.fst) :=
    (duplicatesCheck_ok_iff deps devDeps).trans hfil
  refine ⟨?_, key⟩
  rw [throws_iff_not_ok, ne_eq, key]
  push_neg
  simp

/-- C8: for every falsy wrapped value, including `0`, the empty string
and `false` (which are not nullish), and every key `k`,
`expect(value).toHaveProperty(k)` throws: the falsiness guard fires
before the key is even looked up, so it throws even when a boxed form
of the value would own the key (as the witness shows for
`expect("").toHaveProperty("length")`). -/
theorem toHaveProperty_falsy_spec (k : String) :
    throws (toHaveProperty k (.num 0)) = true ∧
    throws (toHaveProperty k (.str "")) = true ∧
    throws (toHaveProperty k (.bool false)) = true ∧
    (∀ v : JsValue, truthy v = false → throws (toHaveProperty k v) = true) := by
  refine ⟨by simp [toHaveProperty, truthy, throws], by simp [toHaveProperty, truthy, throws],
    rfl, ?_⟩
  intro v h
  cases v <;> simp_all [truthy, toHaveProperty, throws]

/-- Witness for C8 at the empty string and the key `length`. -/
theorem toHaveProperty_falsy_witness :
    truthy (.str "") = false ∧ throws (toHaveProperty "length" (.str "")) = true :=
  ⟨by decide, (toHaveProperty_falsy_spec "length").2.2.2 (.str "") (by decide)⟩

/-- C9 counterexample: `expect(true).not.toContain(1)` throws (the
guard is truthy and calling `includes` on a boolean raises a
`TypeError`) even though `actual.includes(item)` does not hold, so the
matcher does not throw only when `actual.includes(item)` holds. -/
theorem notToContain_counterexample :
    truthy (.bool true) = true ∧
    jsIncludes (.bool true) (.num 1) ≠ .ok true ∧
    throws (notToContain (.bool true) (.num 1)) = true := by
  decide

/-- C9 (amended): `expect(actual).not.toContain(item)` never throws
when `actual` is falsy; against a truthy array it throws exactly when
the array contains `item`; against a string it throws exactly when the
string is nonempty (truthy) and includes `String(item)`; against every
other truthy value (`true`, a nonzero number, an object) it also
throws, with the `TypeError` raised by calling the missing `includes`
method. -/
theorem notToContain_spec (item : JsValue) :
    (∀ v : JsValue, truthy v = false → notToContain v item = .ok ()) ∧
    (∀ elems : JsList, throws (notToContain (.arr elems) item) = elems.containsV item) ∧
    (∀ s : String, throws (notToContain (.str s) item)
        = ((s != "") && strIncludes s (jsToString item))) ∧
    throws (notToContain (.bool true) item) = true ∧
    (∀ n : Int, n ≠ 0 → throws (notToContain (.num n) item) = true) ∧
    (∀ fields : JsFields, throws (notToContain (.obj fields) item) = true) := by
  refine ⟨?_, ?_, ?_, rfl, ?_, fun fields => rfl⟩
  · intro v h
    cases v <;> simp_all [truthy, notToContain, throws]
  · intro elems
    cases h : elems.containsV item <;>
      simp [notToContain, truthy, jsIncludes, throws, h]
  · intro s
    by_cases hs : s = ""
    · subst hs
      simp [notToContain, truthy, throws]
    · cases h : strIncludes s (jsToString item) <;>
        simp [notToContain, truthy, jsIncludes, throws, h, hs]
  · intro n hn
    simp [notToContain, truthy, jsIncludes, throws, hn]

/-- Witness for C9 (amended) at `item = 1`, falsy value `0` and
truthy number `2`. -/
theorem notToContain_spec_witness :
    truthy (.num 0) = false ∧ notToContain (.num 0) (.num 1) = .ok () ∧
    (2 : Int) ≠ 0 ∧ throws (notToContain (.num 2) (.num 1)) = true :=
  ⟨by decide, (notToContain_spec (.num 1)).1 (.num 0) (by decide), by decide,
    (notToContain_spec (.num 1)).2.2.2.2.1 2 (by decide)⟩

end Backpack
